import Mathlib

/-!
Shallow embedding of the syncwave multi-tenant CRM core
(accounts app: companies, users, permissions; wpp app: contacts,
tags, campaigns, messages, dispatch), translated from
`crm/djangoapp/accounts/*.py` and `crm/djangoapp/wpp/*.py`.

Strings from the Python source are modelled as `List Char`;
database rows referenced by primary key are modelled with a
`pk : Nat` field, and Django object equality (`==` on model
instances) is modelled as primary-key equality.  A table is a
`List` of rows; a save that Django would reject with
`ValidationError` is an `Except.error`.
-/

/-- A row of the `accounts.Company` table
(`accounts/models.py`, class `Company`).  `company_type` is
`"master"` or `"client"`. -/
structure Company where
  pk : Nat
  name : List Char
  slug : List Char
  email : List Char
  company_type : String
  is_active : Bool
  deriving DecidableEq

/-- `Company.is_master_company` (`accounts/models.py` line 50). -/
def Company.is_master_company (c : Company) : Bool :=
  c.company_type == "master"

/-- `Company.clean` (`accounts/models.py` lines 54-60): if this
company is master and another master company (different pk)
exists, raise `ValidationError`. -/
def Company.clean (table : List Company) (c : Company) : Except String Unit :=
  if c.company_type == "master" &&
      (table.any (fun o => o.company_type == "master" && !(o.pk == c.pk))) then
    Except.error "Ja existe uma empresa master no sistema."
  else
    Except.ok ()

/-- Insert-or-update of a row by primary key (the effect of
Django `Model.save` on the table). -/
def upsertCompany (table : List Company) (c : Company) : List Company :=
  if table.any (fun o => o.pk == c.pk) then
    table.map (fun o => if o.pk == c.pk then c else o)
  else
    table ++ [c]

/-- `Company.save` (`accounts/models.py` lines 62-64): runs
`full_clean` (hence `clean`) and only then writes the row; on
`ValidationError` nothing is stored. -/
def Company.save (table : List Company) (c : Company) : Except String (List Company) :=
  match Company.clean table c with
  | Except.error e => Except.error e
  | Except.ok _ => Except.ok (upsertCompany table c)

/-- A row of the `accounts.CustomUser` table
(`accounts/models.py`, class `CustomUser`).  `is_superuser` is
the Django `AbstractUser` flag; `company` is the (non-null)
owning company row. -/
structure CustomUser where
  pk : Nat
  username : List Char
  is_superuser : Bool
  company : Company
  role : String
  can_access_all_companies : Bool
  deriving DecidableEq

/-- `CustomUser.is_master_user` (`accounts/models.py` line 114). -/
def CustomUser.is_master_user (u : CustomUser) : Bool :=
  u.company.is_master_company

/-- `CustomUser.can_access_company` (`accounts/models.py` lines
118-122).  Django model equality compares primary keys. -/
def CustomUser.can_access_company (u : CustomUser) (c : Company) : Bool :=
  if u.is_master_user || u.can_access_all_companies then
    true
  else
    u.company.pk == c.pk

/-- `CustomUser.save` (`accounts/models.py` lines 130-134): a
user of the master company is forced to
`can_access_all_companies = true` before the row is written. -/
def CustomUser.save (u : CustomUser) : CustomUser :=
  if u.company.is_master_company then
    { u with can_access_all_companies := true }
  else
    u

/-- A row of the `accounts.CompanyPermission` table
(`accounts/models.py`, class `CompanyPermission`), with the two
company foreign keys as primary keys. -/
structure CompanyPermission where
  company_owner : Nat
  company_granted : Nat
  permission_type : String
  is_active : Bool
  deriving DecidableEq

/-- The access decision as the spec words it (spec section 4.1 /
section 8): superuser, master company, the all-companies flag,
same company, or an active grant `(C -> P.company)`.  This is
the spec-side definition used only to compare against
`CustomUser.can_access_company`. -/
def specCanAccess (grants : List CompanyPermission) (u : CustomUser) (c : Company) : Bool :=
  u.is_superuser ||
  u.company.is_master_company ||
  u.can_access_all_companies ||
  (u.company.pk == c.pk) ||
  grants.any (fun g =>
    g.is_active && (g.company_granted == u.company.pk) && (g.company_owner == c.pk))

/-- A company-scoped row as seen by the tenant filters: only its
owning company matters (the `company` foreign key that
`CompanyQuerySet.for_user` and `CompanyRequiredMixin.get_queryset`
filter on). -/
structure Row where
  pk : Nat
  company : Nat
  deriving DecidableEq

/-- `CompanyQuerySet.for_user` (`accounts/utils.py` lines 8-12):
master users and users with the all-companies flag see the whole
queryset, everyone else only rows of their own company. -/
def for_user (u : CustomUser) (qs : List Row) : List Row :=
  if u.is_master_user || u.can_access_all_companies then
    qs
  else
    qs.filter (fun r => r.company == u.company.pk)

/-- `CompanyRequiredMixin.get_queryset` (`accounts/mixins.py`
lines 20-24): unconditionally filters by the requesting user's
company. -/
def mixin_get_queryset (u : CustomUser) (qs : List Row) : List Row :=
  qs.filter (fun r => r.company == u.company.pk)

/-- The scoped-query filter as the spec words it: the
unrestricted collection when the principal's company is master
or the principal has the all-companies flag, otherwise exactly
the rows of the principal's company.  Spec-side definition used
only to compare against the two code paths. -/
def specScopedQuery (u : CustomUser) (qs : List Row) : List Row :=
  if u.is_master_user || u.can_access_all_companies then
    qs
  else
    qs.filter (fun r => r.company == u.company.pk)

/-- `Command.handle` of
`accounts/management/commands/create_master_company.py` (lines
17-43): inside one transaction, if a master company already
exists nothing is created; otherwise the master company is
created (through `Company.save`, i.e. `full_clean`) and then the
superuser admin user is created (through `CustomUser.save`). -/
def create_master_company_handle (companies : List Company) (users : List CustomUser)
    (newCompanyPk newUserPk : Nat) (name slug email adminUsername : List Char) :
    Except String (List Company × List CustomUser) :=
  if companies.any (fun c => c.company_type == "master") then
    Except.ok (companies, users)
  else
    match Company.save companies
        { pk := newCompanyPk, name := name, slug := slug, email := email,
          company_type := "master", is_active := true } with
    | Except.error e => Except.error e
    | Except.ok companies2 =>
        Except.ok (companies2,
          users ++ [CustomUser.save
            { pk := newUserPk, username := adminUsername, is_superuser := true,
              company := { pk := newCompanyPk, name := name, slug := slug,
                           email := email, company_type := "master", is_active := true },
              role := "admin", can_access_all_companies := true }])

/-- Python `str.replace(ch, '')` as used on phone numbers:
removes every occurrence of one character. -/
def removeChar (ch : Char) (s : List Char) : List Char :=
  s.filter (fun c => !(c == ch))

/-- The phone normalization applied in `Contact.clean` and
`Contact.save` (`wpp/models/contacts.py` lines 98 and 115):
`replace(' ','').replace('-','').replace('(','').replace(')','')`. -/
def normalizePhone (t : List Char) : List Char :=
  removeChar ')' (removeChar '(' (removeChar '-' (removeChar ' ' t)))

/-- Python `str.upper()` restricted to the ASCII letters that
occur in the modelled data. -/
def pyUpper (s : List Char) : List Char :=
  s.map Char.toUpper

/-- A row of the `wpp.Tag` table (`wpp/models/contacts.py`,
class `Tag`). -/
structure Tag where
  pk : Nat
  nome : List Char
  company : Nat
  deriving DecidableEq

/-- `Tag.save` (`wpp/models/contacts.py` lines 24-27): the name
is upper-cased before the row is written. -/
def Tag.save (t : Tag) : Tag :=
  if !(t.nome == []) then { t with nome := pyUpper t.nome } else t

/-- A row of the `wpp.Contact` table (`wpp/models/contacts.py`,
class `Contact`).  `company` is the owning company's pk. -/
structure Contact where
  pk : Nat
  nome : List Char
  telefone : List Char
  origem : List Char
  company : Nat
  deriving DecidableEq

/-- `Contact.clean` (`wpp/models/contacts.py` lines 94-109):
normalizes the phone first, then raises `ValidationError` when
another contact (different pk) of the same company already has
that normalized phone.  Returns the contact with the normalized
phone on success. -/
def Contact.clean (table : List Contact) (c : Contact) : Except String Contact :=
  let c1 := if !(c.telefone == []) then { c with telefone := normalizePhone c.telefone } else c
  if !(c1.telefone == []) &&
      (table.any (fun o =>
        (o.telefone == c1.telefone) && (o.company == c1.company) && !(o.pk == c1.pk))) then
    Except.error "Ja existe um contato com este telefone nesta empresa."
  else
    Except.ok c1

/-- `Contact.save` (`wpp/models/contacts.py` lines 111-121):
strips spaces, hyphens and parentheses from the phone and
upper-cases `nome` and `origem` before the row is written. -/
def Contact.save (c : Contact) : Contact :=
  let c1 := if !(c.telefone == []) then { c with telefone := normalizePhone c.telefone } else c
  let c2 := if !(c1.nome == []) then { c1 with nome := pyUpper c1.nome } else c1
  if !(c2.origem == []) then { c2 with origem := pyUpper c2.origem } else c2

/-- The placeholder `{{nome}}` of the campaign template engine,
as a character list. -/
def nomePat : List Char :=
  ['\x7b', '\x7b', 'n', 'o', 'm', 'e', '\x7d', '\x7d']

/-- Python `str.replace('{{nome}}', rep)`: scans left to right
and replaces every (non-overlapping) occurrence of the
placeholder. -/
def replaceNome (rep : List Char) : List Char → List Char
  | [] => []
  | c :: rest =>
    if nomePat.isPrefixOf (c :: rest) then
      rep ++ replaceNome rep (rest.drop 7)
    else
      c :: replaceNome rep rest
termination_by s => s.length
decreasing_by
  · simp only [List.length_cons, List.length_drop]
    omega
  · simp

/-- Whether a template contains an occurrence of `{{nome}}`. -/
def containsNome : List Char → Bool
  | [] => false
  | c :: rest => nomePat.isPrefixOf (c :: rest) || containsNome rest

/-- A row of the `wpp.Campaign` table
(`wpp/models/campaigns.py`, class `Campaign`). -/
structure Campaign where
  pk : Nat
  nome : List Char
  texto : List Char
  company : Nat
  deriving DecidableEq

/-- `Campaign.processar_texto_para_contato`
(`wpp/models/campaigns.py` lines 56-65):
`texto.replace('{{nome}}', contato.nome)`. -/
def Campaign.processar_texto_para_contato (camp : Campaign) (contato : Contact) : List Char :=
  replaceNome contato.nome camp.texto

/-- A row of the `wpp.MessageLog` table
(`wpp/models/campaigns.py`, class `MessageLog`), keyed by the
recipient contact's pk (`unique_together (message, contato)`).
`status` is `"pendente"`, `"enviado"` or `"erro"`;
`enviado_em` is an abstract timestamp. -/
structure MessageLog where
  contato : Nat
  telefone : List Char
  texto_enviado : List Char
  status : String
  enviado_em : Option Nat
  deriving DecidableEq

/-- A row of the `wpp.Message` table
(`wpp/models/campaigns.py`, class `Message`), carrying its
campaign, its recipient set and its own `MessageLog` rows.
Timestamps are abstract `Nat` instants. -/
structure Message where
  pk : Nat
  status : String
  campanha : Campaign
  contatos : List Contact
  total_contatos : Nat
  total_enviados : Nat
  total_erros : Nat
  data_agendamento : Option Nat
  data_envio_iniciado : Option Nat
  data_envio_finalizado : Option Nat
  updated_at : Nat
  logs : List MessageLog
  deriving DecidableEq

/-- `Message.pode_enviar` (`wpp/models/campaigns.py` lines
160-172): sending is allowed only from status `rascunho` or
`pendente`, with at least one counted contact, and no
still-future schedule. -/
def pode_enviar (m : Message) (now : Nat) : Bool :=
  if !(m.status == "rascunho" || m.status == "pendente") then
    false
  else if m.total_contatos == 0 then
    false
  else
    match m.data_agendamento with
    | some t => if now < t then false else true
    | none => true

/-- Whether the message already has a `MessageLog` row for this
contact (the `get_or_create` lookup key of the dispatch loop). -/
def hasLogFor (m : Message) (c : Contact) : Bool :=
  m.logs.any (fun l => l.contato == c.pk)

/-- Count of this message's logs with status `enviado`. -/
def countEnviado (logs : List MessageLog) : Nat :=
  (logs.filter (fun l => l.status == "enviado")).length

/-- `MessageSendView.post` (`wpp/views.py` lines 874-927): if
`pode_enviar` fails the message is untouched; otherwise status
moves to `enviando`, a pending log is get-or-created per contact
(existing logs are kept and skipped), every *newly created* log
is then marked `enviado` (the provider call is simulated as
always succeeding), and finally `total_enviados` is set to the
number of logs created in this run and status to `enviada`. -/
def sendPost (m : Message) (now : Nat) : Message :=
  if pode_enviar m now then
    let m1 := { m with status := "enviando", data_envio_iniciado := some now }
    let novos := m1.contatos.filter (fun c => !(hasLogFor m1 c))
    let logs_created := novos.map (fun c =>
      { contato := c.pk, telefone := c.telefone,
        texto_enviado := m1.campanha.processar_texto_para_contato c,
        status := "pendente", enviado_em := none : MessageLog })
    let enviados := logs_created.map (fun l =>
      { l with status := "enviado", enviado_em := some now })
    { m1 with logs := m1.logs ++ enviados,
              total_enviados := logs_created.length,
              status := "enviada",
              data_envio_finalizado := some now }
  else
    m

/-- `MessageUpdateView.form_valid` (`wpp/views.py` lines
796-811): a message whose status is `enviando` or `enviada` is
not edited (a user-facing error is shown, flagged `false`
here); otherwise the form edit is applied, `total_contatos`
recomputed and `updated_at` refreshed. -/
def message_update (m : Message) (edit : Message → Message) (now : Nat) :
    Message × Bool :=
  if m.status == "enviando" || m.status == "enviada" then
    (m, false)
  else
    let m1 := edit m
    ({ m1 with total_contatos := m1.contatos.length, updated_at := now }, true)

/-- `MessageDeleteView.delete` (`wpp/views.py` lines 830-839):
a message whose status is `enviando` or `enviada` is not
deleted (a user-facing error is shown, flagged `false` here);
otherwise its row is removed from the table. -/
def message_delete (table : List Message) (m : Message) : List Message × Bool :=
  if m.status == "enviando" || m.status == "enviada" then
    (table, false)
  else
    (table.filter (fun x => !(x.pk == m.pk)), true)

/-! ### Concrete fixtures used by counterexamples and witnesses -/

/-- The master company fixture. -/
def coMaster : Company :=
  { pk := 1, name := "SyncWave".toList, slug := "syncwave".toList,
    email := "m@x.io".toList, company_type := "master", is_active := true }

/-- A client company fixture. -/
def coAcme : Company :=
  { pk := 2, name := "Acme".toList, slug := "acme".toList,
    email := "a@x.io".toList, company_type := "client", is_active := true }

/-- A second client company fixture. -/
def coGlobex : Company :=
  { pk := 3, name := "Globex".toList, slug := "globex".toList,
    email := "g@x.io".toList, company_type := "client", is_active := true }

/-- A Django superuser employed by the client company `coAcme`,
with no cross-company flag. -/
def rootUserAcme : CustomUser :=
  { pk := 10, username := "root".toList, is_superuser := true,
    company := coAcme, role := "admin", can_access_all_companies := false }

/-- An ordinary user of the master company (not a Django
superuser, flag not set on input). -/
def masterUser : CustomUser :=
  { pk := 11, username := "eve".toList, is_superuser := false,
    company := coMaster, role := "employee", can_access_all_companies := false }

/-- An ordinary user of the client company `coAcme`. -/
def acmeUser : CustomUser :=
  { pk := 12, username := "bob".toList, is_superuser := false,
    company := coAcme, role := "employee", can_access_all_companies := false }

/-! ### C1 — the access decision -/

/-- C1 (counterexample).  The claim states that
`can_access_company` equals the five-clause spec decision
(superuser, master, flag, same company, active grant); it does
not: a Django superuser employed by a client company, with no
flag and no grants, is denied access to another company by the
code while the spec decision grants it. -/
theorem can_access_company_ignores_superuser_and_grants :
    CustomUser.can_access_company rootUserAcme coGlobex ≠
      specCanAccess [] rootUserAcme coGlobex := by
  decide

/-- C1 (amended).  `CustomUser.can_access_company` returns true
iff the principal's company is master, or the principal has
`can_access_all_companies`, or the principal's company is the
target company; Django superuser status and `CompanyPermission`
grants play no role in this decision. -/
theorem can_access_company_eq_master_or_flag_or_own (u : CustomUser) (c : Company) :
    u.can_access_company c =
      (u.is_master_user || u.can_access_all_companies || (u.company.pk == c.pk)) := by
  unfold CustomUser.can_access_company
  cases h : (u.is_master_user || u.can_access_all_companies) <;> simp [h]

/-! ### C2 — the tenant-scoped query filters -/

/-- A row fixture owned by the client company `coAcme`. -/
def rowAcme : Row := { pk := 100, company := 2 }

/-- C2 (counterexample).  The claim states that both scoped read
paths give a master-company user full visibility; the mixin path
does not: `CompanyRequiredMixin.get_queryset` filters a
master-company user down to their own company's rows, dropping
the `coAcme`-owned row. -/
theorem mixin_queryset_filters_master_user :
    mixin_get_queryset masterUser [rowAcme] ≠
      specScopedQuery masterUser [rowAcme] := by
  decide

/-- C2 (amended).  `CompanyQuerySet.for_user` implements exactly
the claimed filter (no filter for master-company users or users
with the all-companies flag, own-company rows otherwise), but
`CompanyRequiredMixin.get_queryset` always restricts to the
requesting user's company, for every principal including master
users. -/
theorem scoped_read_paths_characterization (u : CustomUser) (qs : List Row) :
    for_user u qs = specScopedQuery u qs ∧
    mixin_get_queryset u qs = qs.filter (fun r => r.company == u.company.pk) :=
  ⟨rfl, rfl⟩

/-! ### C5 — sent messages are locked -/

/-- C5.  On a message whose status is `enviando` or `enviada`,
the update view and the delete view both refuse the operation
(user-facing error, flagged `false`), leaving the message and
the message table completely unchanged. -/
theorem sent_message_update_delete_rejected
    (m : Message) (edit : Message → Message) (now : Nat) (table : List Message)
    (h : m.status = "enviando" ∨ m.status = "enviada") :
    message_update m edit now = (m, false) ∧
    message_delete table m = (table, false) := by
  have hb : (m.status == "enviando" || m.status == "enviada") = true := by
    rcases h with h | h <;> simp [h]
  exact ⟨by simp [message_update, hb], by simp [message_delete, hb]⟩

/-! ### C7 — master-company users get the all-companies flag -/

/-- C7.  Saving a user whose company is master always stores
`can_access_all_companies = true`, whatever the field held
before; saving a user of a non-master company leaves the row
exactly as given. -/
theorem master_company_user_forced_flag (u v : CustomUser)
    (hu : u.company.is_master_company = true)
    (hv : v.company.is_master_company = false) :
    (CustomUser.save u).can_access_all_companies = true ∧
    CustomUser.save v = v := by
  constructor
  · simp [CustomUser.save, hu]
  · simp [CustomUser.save, hv]

/-- C7 (witness): the fixture `masterUser` starts with the flag
unset and is forced to `true` by save; the client user `acmeUser`
is stored untouched. -/
theorem master_company_user_forced_flag_witness :
    (CustomUser.save masterUser).can_access_all_companies = true ∧
    CustomUser.save acmeUser = acmeUser :=
  master_company_user_forced_flag masterUser acmeUser (by decide) (by decide)

/-! ### C10 — save-time normalization of contacts and tags -/

/-- C10.  Every contact save stores `nome` and `origem`
upper-cased and `telefone` with spaces, hyphens and parentheses
stripped, and every tag save stores `nome` upper-cased, whatever
form the caller supplied. -/
theorem save_normalizes_fields (c : Contact) (t : Tag) :
    (Contact.save c).nome = pyUpper c.nome ∧
    (Contact.save c).origem = pyUpper c.origem ∧
    (Contact.save c).telefone = normalizePhone c.telefone ∧
    (Tag.save t).nome = pyUpper t.nome := by
  refine ⟨?_, ?_, ?_, ?_⟩
  · by_cases h1 : c.telefone = [] <;> by_cases h2 : c.nome = [] <;>
      by_cases h3 : c.origem = [] <;>
      simp [Contact.save, h1, h2, h3, pyUpper]
  · by_cases h1 : c.telefone = [] <;> by_cases h2 : c.nome = [] <;>
      by_cases h3 : c.origem = [] <;>
      simp [Contact.save, h1, h2, h3, pyUpper]
  · by_cases h1 : c.telefone = [] <;> by_cases h2 : c.nome = [] <;>
      by_cases h3 : c.origem = [] <;>
      simp [Contact.save, h1, h2, h3, pyUpper, normalizePhone, removeChar]
  · by_cases h : t.nome = [] <;> simp [Tag.save, h, pyUpper]

/-- A campaign fixture with an empty template, used by message
fixtures whose rendering content is irrelevant. -/
def campEmpty : Campaign :=
  { pk := 20, nome := "Promo".toList, texto := [], company := 2 }

/-- A contact fixture of company `coAcme`. -/
def ctAna : Contact :=
  { pk := 31, nome := "ANA".toList, telefone := "+5548999990001".toList,
    origem := [], company := 2 }

/-- A second contact fixture of company `coAcme`. -/
def ctBea : Contact :=
  { pk := 32, nome := "BEA".toList, telefone := "+5548999990002".toList,
    origem := [], company := 2 }

/-- A message fixture that has already been fully sent. -/
def msgSent : Message :=
  { pk := 40, status := "enviada", campanha := campEmpty, contatos := [ctAna, ctBea],
    total_contatos := 2, total_enviados := 2, total_erros := 0,
    data_agendamento := none, data_envio_iniciado := some 1,
    data_envio_finalizado := some 2, updated_at := 2,
    logs := [{ contato := 31, telefone := ctAna.telefone, texto_enviado := [],
               status := "enviado", enviado_em := some 2 },
             { contato := 32, telefone := ctBea.telefone, texto_enviado := [],
               status := "enviado", enviado_em := some 2 }] }

/-- C5 (witness): the sent fixture `msgSent` survives both an
update attempt (with an edit that would clear its recipients)
and a delete attempt untouched. -/
theorem sent_message_update_delete_witness :
    message_update msgSent (fun m => { m with contatos := [] }) 9 = (msgSent, false) ∧
    message_delete [msgSent] msgSent = ([msgSent], false) :=
  sent_message_update_delete_rejected msgSent (fun m => { m with contatos := [] }) 9
    [msgSent] (Or.inr rfl)

/-! ### C6 — at most one master company; provisioning command -/

/-- C6.  Saving a company of type master while a different
master company already exists fails with `ValidationError` and
stores nothing; the provisioning command leaves both tables
untouched when a master company exists, and otherwise creates
exactly the master company and its superuser admin user. -/
theorem single_master_and_provisioning
    (db : List Company) (c : Company)
    (hc : c.company_type = "master")
    (o : Company) (ho : o ∈ db) (hom : o.company_type = "master") (hop : o.pk ≠ c.pk)
    (companies : List Company) (users : List CustomUser)
    (nCPk nUPk : Nat) (nm sl em au : List Char)
    (hmaster : companies.any (fun x => x.company_type == "master") = true)
    (companies2 : List Company) (users2 : List CustomUser)
    (hnone : companies2.any (fun x => x.company_type == "master") = false)
    (hfresh : companies2.any (fun x => x.pk == nCPk) = false) :
    Company.save db c = Except.error "Ja existe uma empresa master no sistema." ∧
    create_master_company_handle companies users nCPk nUPk nm sl em au =
      Except.ok (companies, users) ∧
    create_master_company_handle companies2 users2 nCPk nUPk nm sl em au =
      Except.ok (companies2 ++ [{ pk := nCPk, name := nm, slug := sl, email := em,
                                  company_type := "master", is_active := true }],
                 users2 ++ [{ pk := nUPk, username := au, is_superuser := true,
                              company := { pk := nCPk, name := nm, slug := sl, email := em,
                                           company_type := "master", is_active := true },
                              role := "admin", can_access_all_companies := true }]) := by
  refine ⟨?_, ?_, ?_⟩
  · have hany : db.any (fun x => x.company_type == "master" && !(x.pk == c.pk)) = true := by
      rw [List.any_eq_true]
      refine ⟨o, ho, ?_⟩
      simp [hom, hop]
    simp [Company.save, Company.clean, hc, hany]
  · simp [create_master_company_handle, hmaster]
  · have hcleanAny :
        companies2.any (fun x => x.company_type == "master" && !(x.pk == nCPk)) = false := by
      rw [List.any_eq_false]
      intro x hx
      have := List.any_eq_false.mp hnone x hx
      simp only [Bool.and_eq_true, not_and] at this ⊢
      intro hxt
      exact absurd hxt this
    simp [create_master_company_handle, hnone, Company.save, Company.clean, hcleanAny,
          upsertCompany, hfresh, CustomUser.save, Company.is_master_company]

/-- C6 (witness): with `coMaster` present, saving a second
master company `coMaster2` fails and the command is a no-op;
on an empty directory the command creates the master company
and its admin. -/
theorem single_master_and_provisioning_witness :
    Company.save [coMaster]
        { pk := 5, name := "Dup".toList, slug := "dup".toList, email := "d@x.io".toList,
          company_type := "master", is_active := true } =
      Except.error "Ja existe uma empresa master no sistema." ∧
    create_master_company_handle [coMaster] [] 6 7 "N".toList "n".toList "n@x.io".toList
        "adm".toList = Except.ok ([coMaster], []) ∧
    create_master_company_handle [] [] 6 7 "N".toList "n".toList "n@x.io".toList
        "adm".toList =
      Except.ok ([{ pk := 6, name := "N".toList, slug := "n".toList,
                    email := "n@x.io".toList, company_type := "master", is_active := true }],
                 [{ pk := 7, username := "adm".toList, is_superuser := true,
                    company := { pk := 6, name := "N".toList, slug := "n".toList,
                                 email := "n@x.io".toList, company_type := "master",
                                 is_active := true },
                    role := "admin", can_access_all_companies := true }]) :=
  single_master_and_provisioning [coMaster]
    { pk := 5, name := "Dup".toList, slug := "dup".toList, email := "d@x.io".toList,
      company_type := "master", is_active := true }
    rfl coMaster (by decide) (by decide) (by decide)
    [coMaster] [] 6 7 "N".toList "n".toList "n@x.io".toList "adm".toList (by decide)
    [] [] (by decide) (by decide)

/-! ### C9 — contact phone uniqueness is scoped per company -/

/-- C9.  `Contact.clean` normalizes the phone (stripping spaces,
hyphens and parentheses) before the uniqueness check; it rejects
a contact whose normalized phone is already held by a different
contact of the *same* company, and accepts a contact as long as
every same-company clash is absent — contacts of other companies
with the same phone never matter. -/
theorem contact_phone_scoped_uniqueness
    (db : List Contact) (c : Contact)
    (hne : ¬(c.telefone = [])) (hnn : ¬(normalizePhone c.telefone = []))
    (o : Contact) (ho : o ∈ db) (hot : o.telefone = normalizePhone c.telefone)
    (hoc : o.company = c.company) (hop : o.pk ≠ c.pk)
    (db2 : List Contact) (c2 : Contact)
    (hfree : ∀ x ∈ db2, x.company = c2.company → x.pk ≠ c2.pk →
       x.telefone ≠ normalizePhone c2.telefone) :
    Contact.clean db c =
      Except.error "Ja existe um contato com este telefone nesta empresa." ∧
    Contact.clean db2 c2 =
      Except.ok { c2 with telefone := normalizePhone c2.telefone } := by
  constructor
  · simp only [Contact.clean]
    simp [hne, hnn]
    exact ⟨o, ho, hot, hoc, hop⟩
  · by_cases h2 : c2.telefone = []
    · rcases c2 with ⟨pk2, nome2, tel2, ori2, comp2⟩
      simp only at h2
      subst h2
      simp [Contact.clean, normalizePhone, removeChar]
    · by_cases h3 : normalizePhone c2.telefone = []
      · simp [Contact.clean, h2, h3]
      · simp only [Contact.clean]
        simp [h2, h3]
        intro x hx hxt hxc
        by_cases hxp : x.pk = c2.pk
        · simp [hxp]
        · exact absurd hxt (hfree x hx hxc hxp)

/-- C9 (witness): `"+55 48-99999(0001)"` normalizes to
`ctAna`'s stored phone; the clash inside `coAcme` is rejected
while the identical phone in `coGlobex` is accepted (stored in
normalized form). -/
theorem contact_phone_scoped_uniqueness_witness :
    Contact.clean [ctAna]
        { pk := 33, nome := "EVA".toList, telefone := "+55 48-99999(0001)".toList,
          origem := [], company := 2 } =
      Except.error "Ja existe um contato com este telefone nesta empresa." ∧
    Contact.clean [ctAna]
        { pk := 34, nome := "IVO".toList, telefone := "+55 48-99999(0001)".toList,
          origem := [], company := 3 } =
      Except.ok { pk := 34, nome := "IVO".toList, telefone := "+5548999990001".toList,
                  origem := [], company := 3 } := by
  have h := contact_phone_scoped_uniqueness [ctAna]
    { pk := 33, nome := "EVA".toList, telefone := "+55 48-99999(0001)".toList,
      origem := [], company := 2 }
    (by decide) (by decide) ctAna (by decide) (by decide) (by decide) (by decide)
    [ctAna]
    { pk := 34, nome := "IVO".toList, telefone := "+55 48-99999(0001)".toList,
      origem := [], company := 3 }
    (by decide)
  exact ⟨h.1, h.2⟩

/-! ### C4 — aggregate counters after a dispatch run -/

/-- A resumable message fixture: status `pendente`, two
recipients, and one log already `enviado` from an earlier run. -/
def msgResume : Message :=
  { pk := 41, status := "pendente", campanha := campEmpty, contatos := [ctAna, ctBea],
    total_contatos := 2, total_enviados := 1, total_erros := 0,
    data_agendamento := none, data_envio_iniciado := some 1,
    data_envio_finalizado := none, updated_at := 1,
    logs := [{ contato := 31, telefone := ctAna.telefone, texto_enviado := [],
               status := "enviado", enviado_em := some 1 }] }

/-- A fresh message fixture: status `rascunho`, two recipients,
no logs yet. -/
def msgFresh : Message :=
  { pk := 42, status := "rascunho", campanha := campEmpty, contatos := [ctAna, ctBea],
    total_contatos := 2, total_enviados := 0, total_erros := 0,
    data_agendamento := none, data_envio_iniciado := none,
    data_envio_finalizado := none, updated_at := 0, logs := [] }

/-- C4 (counterexample).  The claim states that after the
dispatch loop `total_enviados` is recomputed from the stored log
statuses; it is not: on `msgResume` (one log already `enviado`,
one contact still missing) the run ends with `total_enviados = 1`
(the number of logs created in this run) while two stored logs
have status `enviado`. -/
theorem total_enviados_not_recomputed_from_logs :
    (sendPost msgResume 5).total_enviados ≠
      countEnviado (sendPost msgResume 5).logs := by
  decide

/-- A batch of logs built by a constructor that always sets
status `enviado` counts entirely as `enviado`. -/
theorem countEnviado_map_status {α : Type} (f : α → MessageLog)
    (h : ∀ a, (f a).status = "enviado") (l : List α) :
    countEnviado (l.map f) = l.length := by
  induction l with
  | nil => rfl
  | cons a t ih => simpa [countEnviado, List.filter_cons, h a] using ih

/-- C4 (amended).  After a dispatch run on a sendable message,
the final status is `enviada` and `total_enviados` is set to the
number of logs *created in this run* (contacts that had no log
before) — an ad-hoc count, not a recomputation from log
statuses.  Only on a fresh message (no pre-existing logs) does
this coincide with the count of logs stored as `enviado`; and no
per-contact provider failure exists in the code, as the
simulated provider always succeeds. -/
theorem dispatch_counters_after_run (m : Message) (now : Nat)
    (h : pode_enviar m now = true) :
    (sendPost m now).status = "enviada" ∧
    (sendPost m now).total_enviados =
      (m.contatos.filter (fun c => !(hasLogFor m c))).length ∧
    (m.logs = [] →
      (sendPost m now).total_enviados = countEnviado (sendPost m now).logs) := by
  unfold sendPost
  rw [if_pos h]
  refine ⟨rfl, ?_, ?_⟩
  · simp [hasLogFor]
  · intro hl
    simp [hasLogFor, hl]
    exact (countEnviado_map_status _ (fun a => rfl) m.contatos).symm

/-- C4 (witness): running dispatch on the fresh fixture
`msgFresh` ends in status `enviada` with `total_enviados` equal
to the two logs it created, matching the stored `enviado` logs. -/
theorem dispatch_counters_witness :
    (sendPost msgFresh 5).status = "enviada" ∧
    (sendPost msgFresh 5).total_enviados =
      (msgFresh.contatos.filter (fun c => !(hasLogFor msgFresh c))).length ∧
    (msgFresh.logs = [] →
      (sendPost msgFresh 5).total_enviados = countEnviado (sendPost msgFresh 5).logs) :=
  dispatch_counters_after_run msgFresh 5 (by decide)

/-! ### C8 — template rendering -/

/-- `List.isPrefixOf` in terms of `take`. -/
theorem isPrefixOf_iff_take : ∀ (p s : List Char),
    p.isPrefixOf s = true ↔ s.take p.length = p
  | [], s => by simp [List.isPrefixOf]
  | a :: as, [] => by simp [List.isPrefixOf]
  | a :: as, b :: bs => by
    simp only [List.isPrefixOf, Bool.and_eq_true, beq_iff_eq, List.length_cons,
      List.take_succ_cons, List.cons.injEq, isPrefixOf_iff_take as bs]
    constructor
    · rintro ⟨h1, h2⟩
      exact ⟨h1.symm, h2⟩
    · rintro ⟨h1, h2⟩
      exact ⟨h1.symm, h2⟩

/-- No proper nonempty suffix of `{{nome}}` is a prefix of
`{{nome}}`: the placeholder cannot overlap itself. -/
theorem nomePat_no_overlap :
    ∀ n, n < 8 → 1 ≤ n → ¬(nomePat.drop n = nomePat.take (8 - n)) := by
  decide

/-- If `{{nome}}` is not a prefix of the nonempty block `s`,
then it is not a prefix of `s ++ ({{nome}} ++ rest)` either: an
occurrence cannot straddle the boundary. -/
theorem nomePat_no_straddle (s rest : List Char) (hne : s ≠ [])
    (h : nomePat.isPrefixOf s = false) :
    nomePat.isPrefixOf (s ++ (nomePat ++ rest)) = false := by
  cases hval : nomePat.isPrefixOf (s ++ (nomePat ++ rest)) with
  | false => rfl
  | true =>
    exfalso
    have htake := (isPrefixOf_iff_take nomePat (s ++ (nomePat ++ rest))).mp hval
    have hlen8 : nomePat.length = 8 := rfl
    rw [hlen8, List.take_append_eq_append_take] at htake
    by_cases hs : 8 ≤ s.length
    · have h0 : 8 - s.length = 0 := Nat.sub_eq_zero_of_le hs
      rw [h0, List.take_zero, List.append_nil] at htake
      have hps : nomePat.isPrefixOf s = true := by
        rw [isPrefixOf_iff_take, hlen8]
        exact htake
      exact absurd hps (by simp [h])
    · have h1 : 1 ≤ s.length := by
        cases s with
        | nil => exact absurd rfl hne
        | cons x xs => simp
      have hts : s.take 8 = s := List.take_of_length_le (by omega)
      rw [hts, List.take_append_eq_append_take, hlen8] at htake
      have h0 : 8 - s.length - 8 = 0 := by omega
      rw [h0, List.take_zero, List.append_nil] at htake
      have hdrop := congrArg (List.drop s.length) htake
      rw [List.drop_left] at hdrop
      exact nomePat_no_overlap s.length (by omega) h1 hdrop.symm

/-- The cons-step equation of `replaceNome`. -/
theorem replaceNome_cons (rep : List Char) (c : Char) (rest : List Char) :
    replaceNome rep (c :: rest) =
      if nomePat.isPrefixOf (c :: rest) then rep ++ replaceNome rep (rest.drop 7)
      else c :: replaceNome rep rest := by
  simp only [replaceNome]

/-- A template with no `{{nome}}` occurrence is returned
verbatim by the replacement scan. -/
theorem replaceNome_id (rep : List Char) (s : List Char) (h : containsNome s = false) :
    replaceNome rep s = s := by
  induction s with
  | nil => simp [replaceNome]
  | cons c rest ih =>
    have h12 : nomePat.isPrefixOf (c :: rest) = false ∧ containsNome rest = false := by
      simpa [containsNome, Bool.or_eq_false_iff] using h
    rw [replaceNome_cons, if_neg (by simp [h12.1]), ih h12.2]

/-- Scanning past an occurrence-free block `p`, the replacement
rewrites the occurrence of `{{nome}}` right after it and keeps
scanning the remainder. -/
theorem replaceNome_append (rep : List Char) :
    ∀ (p rest : List Char), containsNome p = false →
      replaceNome rep (p ++ (nomePat ++ rest)) = p ++ (rep ++ replaceNome rep rest)
  | [], rest, _ => by
    have hpre : nomePat.isPrefixOf
        ('\x7b' :: (['\x7b', 'n', 'o', 'm', 'e', '\x7d', '\x7d'] ++ rest)) = true := by
      rw [isPrefixOf_iff_take]
      exact List.take_left nomePat rest
    show replaceNome rep
        ('\x7b' :: (['\x7b', 'n', 'o', 'm', 'e', '\x7d', '\x7d'] ++ rest)) =
      [] ++ (rep ++ replaceNome rep rest)
    rw [replaceNome_cons, if_pos hpre,
      show (['\x7b', 'n', 'o', 'm', 'e', '\x7d', '\x7d'] ++ rest).drop 7 = rest from
        List.drop_left ['\x7b', 'n', 'o', 'm', 'e', '\x7d', '\x7d'] rest]
    simp
  | c :: p', rest, hp => by
    have h12 : nomePat.isPrefixOf (c :: p') = false ∧ containsNome p' = false := by
      simpa [containsNome, Bool.or_eq_false_iff] using hp
    have hstr : nomePat.isPrefixOf (c :: (p' ++ (nomePat ++ rest))) = false :=
      nomePat_no_straddle (c :: p') rest (by simp) h12.1
    show replaceNome rep (c :: (p' ++ (nomePat ++ rest))) =
      (c :: p') ++ (rep ++ replaceNome rep rest)
    rw [replaceNome_cons, if_neg (by simp [hstr]),
      replaceNome_append rep p' rest h12.2]
    simp

/-- C8.  Rendering (`Campaign.processar_texto_para_contato`)
replaces every occurrence of `{{nome}}` with the contact's name
and keeps everything else verbatim: over an occurrence-free
block `p` the template `p ++ {{nome}} ++ rest` renders to
`p ++ nome ++ render(rest)`, a template with no occurrence is
returned unchanged (so unknown placeholders pass through), and
rendering is deterministic. -/
theorem render_replaces_placeholder (camp : Campaign) (ct : Contact)
    (p rest : List Char) (hp : containsNome p = false)
    (ht : camp.texto = p ++ (nomePat ++ rest)) :
    camp.processar_texto_para_contato ct = p ++ (ct.nome ++ replaceNome ct.nome rest) ∧
    (∀ camp2 : Campaign, containsNome camp2.texto = false →
       camp2.processar_texto_para_contato ct = camp2.texto) ∧
    camp.processar_texto_para_contato ct = camp.processar_texto_para_contato ct := by
  refine ⟨?_, ?_, rfl⟩
  · rw [Campaign.processar_texto_para_contato, ht]
    exact replaceNome_append ct.nome p rest hp
  · intro camp2 h2
    rw [Campaign.processar_texto_para_contato]
    exact replaceNome_id ct.nome camp2.texto h2

/-- A campaign fixture whose template carries one placeholder. -/
def campOi : Campaign :=
  { pk := 21, nome := "Saudacao".toList,
    texto := "Oi \x7b\x7bnome\x7d\x7d, promo hoje!".toList, company := 2 }

/-- A contact fixture named Maria. -/
def ctMaria : Contact :=
  { pk := 35, nome := "Maria".toList, telefone := "+5548999990003".toList,
    origem := [], company := 2 }

/-- C8 (witness): the spec scenario — `"Oi {{nome}}, promo
hoje!"` rendered for Maria. -/
theorem render_replaces_placeholder_witness :
    campOi.processar_texto_para_contato ctMaria =
      "Oi ".toList ++ ("Maria".toList ++ replaceNome "Maria".toList ", promo hoje!".toList) ∧
    (∀ camp2 : Campaign, containsNome camp2.texto = false →
       camp2.processar_texto_para_contato ctMaria = camp2.texto) ∧
    campOi.processar_texto_para_contato ctMaria = campOi.processar_texto_para_contato ctMaria :=
  render_replaces_placeholder campOi ctMaria "Oi ".toList ", promo hoje!".toList
    (by decide) (by decide)

/-! ### C3 — re-entrant dispatch -/

/-- Splitting a list by a Boolean predicate preserves length. -/
theorem length_filter_add_not {α : Type} (p : α → Bool) (l : List α) :
    (l.filter p).length + (l.filter (fun a => !(p a))).length = l.length := by
  induction l with
  | nil => rfl
  | cons a t ih =>
    cases h : p a <;> simp [List.filter_cons, h] <;> omega

/-- With pairwise-distinct contact pks, pairwise-distinct log
keys, and every log keyed by one of the message's contacts,
the contacts that already have a log are in bijection with the
logs. -/
theorem length_filter_hasLog (m : Message)
    (hnodupC : (m.contatos.map (fun c => c.pk)).Nodup)
    (hnodupL : (m.logs.map (fun l => l.contato)).Nodup)
    (hcover : ∀ l ∈ m.logs, l.contato ∈ m.contatos.map (fun c => c.pk)) :
    (m.contatos.filter (fun c => hasLogFor m c)).length = m.logs.length := by
  have hAnodup : ((m.contatos.filter (fun c => hasLogFor m c)).map (fun c => c.pk)).Nodup := by
    refine List.Nodup.sublist ?_ hnodupC
    exact List.Sublist.map _ (List.filter_sublist _)
  have hAB : (m.contatos.filter (fun c => hasLogFor m c)).map (fun c => c.pk) ⊆
      m.logs.map (fun l => l.contato) := by
    intro x hx
    rw [List.mem_map] at hx
    obtain ⟨c, hc, rfl⟩ := hx
    rw [List.mem_filter] at hc
    obtain ⟨hcm, hcl⟩ := hc
    rw [hasLogFor, List.any_eq_true] at hcl
    obtain ⟨l, hl, hbeq⟩ := hcl
    rw [beq_iff_eq] at hbeq
    rw [List.mem_map]
    exact ⟨l, hl, hbeq⟩
  have hBA : m.logs.map (fun l => l.contato) ⊆
      (m.contatos.filter (fun c => hasLogFor m c)).map (fun c => c.pk) := by
    intro x hx
    rw [List.mem_map] at hx
    obtain ⟨l, hl, rfl⟩ := hx
    have hx2 := hcover l hl
    rw [List.mem_map] at hx2
    obtain ⟨c, hcm, hcpk⟩ := hx2
    rw [List.mem_map]
    refine ⟨c, ?_, hcpk⟩
    rw [List.mem_filter]
    refine ⟨hcm, ?_⟩
    rw [hasLogFor, List.any_eq_true]
    exact ⟨l, hl, by rw [beq_iff_eq, hcpk]⟩
  have hle1 := (List.Nodup.subperm hAnodup hAB).length_le
  have hle2 := (List.Nodup.subperm hnodupL hBA).length_le
  rw [List.length_map] at hle1 hle2
  rw [List.length_map] at hle1 hle2
  omega

/-- C3 (counterexample).  The claim states that re-invoking send
is permitted "including after a failed run"; it is not: on a
message in status `erro` with two recipients and one previously
`enviado` log, `pode_enviar` refuses (it only allows `rascunho`
and `pendente`), so the dispatch view rejects the re-send. -/
theorem resend_after_error_rejected :
    ({ msgResume with status := "erro" } : Message).status = "erro" ∧
    countEnviado ({ msgResume with status := "erro" } : Message).logs = 1 ∧
    ({ msgResume with status := "erro" } : Message).contatos.length = 2 ∧
    pode_enviar { msgResume with status := "erro" } 5 = false := by
  decide

/-- C3 (amended).  On a message that `pode_enviar` accepts
(status `rascunho`/`pendente` only — a failed run in status
`erro` can never be re-invoked), re-running dispatch creates
exactly the missing logs so the total log count becomes the
recipient count, keeps every pre-existing log unchanged
(skipping its contact regardless of the log's status — `sent`,
`pending` and `error` logs alike are never re-sent), and marks
exactly the newly created logs `enviado`. -/
theorem dispatch_resume_creates_only_missing_logs (m : Message) (now : Nat)
    (hsend : pode_enviar m now = true)
    (hnodupC : (m.contatos.map (fun c => c.pk)).Nodup)
    (hnodupL : (m.logs.map (fun l => l.contato)).Nodup)
    (hcover : ∀ l ∈ m.logs, l.contato ∈ m.contatos.map (fun c => c.pk)) :
    (sendPost m now).logs.length = m.contatos.length ∧
    (∀ l ∈ m.logs, l ∈ (sendPost m now).logs) ∧
    (∀ l ∈ (sendPost m now).logs, l ∉ m.logs → l.status = "enviado") ∧
    (∀ m2 : Message, m2.status = "erro" → pode_enviar m2 now = false) := by
  unfold sendPost
  rw [if_pos hsend]
  refine ⟨?_, ?_, ?_, ?_⟩
  · have hpart := length_filter_add_not (fun c => hasLogFor m c) m.contatos
    have hcount := length_filter_hasLog m hnodupC hnodupL hcover
    simp only [hasLogFor] at hpart hcount ⊢
    simp [List.length_append, List.length_map]
    omega
  · intro l hl
    exact List.mem_append_left _ hl
  · intro l hl hnot
    rcases List.mem_append.mp hl with h | h
    · exact absurd h hnot
    · obtain ⟨x, hx, rfl⟩ := List.mem_map.mp h
      rfl
  · intro m2 h2
    simp [pode_enviar, h2]

/-- C3 (witness): re-running dispatch on `msgResume` (one of two
logs already `enviado`) ends with exactly two logs, the old log
kept, and the newly created log marked `enviado`. -/
theorem dispatch_resume_witness :
    (sendPost msgResume 5).logs.length = msgResume.contatos.length ∧
    (∀ l ∈ msgResume.logs, l ∈ (sendPost msgResume 5).logs) ∧
    (∀ l ∈ (sendPost msgResume 5).logs, l ∉ msgResume.logs → l.status = "enviado") ∧
    (∀ m2 : Message, m2.status = "erro" → pode_enviar m2 5 = false) :=
  dispatch_resume_creates_only_missing_logs msgResume 5
    (by decide) (by decide) (by decide) (by decide)
